import Mathlib

/-
  Verification development for the Saves personal-finance API
  (saves-api/src/index.ts): a shallow embedding of its data model and of
  the SQL queries issued by the route handlers, with theorems settling
  the specification's claims about them.

  Modelling conventions:
  * SQL TEXT dates ("YYYY-MM-DD") are Lean `String`s; SQLite compares TEXT
    with memcmp over UTF-8 bytes, which coincides with lexicographic
    comparison of code points, embedded here as `strLe`.
  * JS numbers (transaction amounts, SUM results) are embedded as `ℚ`,
    i.e. exact arithmetic at the amount's native precision.
  * A SQL result set is a `List` of row structures; `GROUP BY k` is
    `groupByKey`: one group per distinct key, the group being the rows
    with that key; `ORDER BY` is a sort with the corresponding relation;
    `LIMIT n` is `List.take n`.
  * JS truthiness on optional query-string parameters (`if (start_date)`)
    is `jsTruthy`: absent and empty strings are falsy.
-/

namespace Saves

/-- Lexicographic comparison of character lists by code point, the order
memcmp induces on UTF-8 encoded text (SQLite's TEXT comparison). -/
def lexLe : List Char → List Char → Bool
  | [], _ => true
  | _ :: _, [] => false
  | a :: as, b :: bs =>
    if a.toNat < b.toNat then true
    else if b.toNat < a.toNat then false
    else lexLe as bs

/-- SQLite TEXT `<=` on date strings. -/
def strLe (a b : String) : Bool := lexLe a.data b.data

/-- JS truthiness of an optional string parameter: `undefined` and `""`
are falsy. -/
def jsTruthy : Option String → Bool
  | none => false
  | some s => !(s == "")

/-- Transaction type: the `type` column, `'income' | 'expense'`. -/
inductive TxType
  | income
  | expense
deriving DecidableEq

/-- Row of the `users` table (the columns the API reads). -/
structure User where
  id : Int
  username : String
deriving DecidableEq

/-- Row of the `categories` table. -/
structure Category where
  id : Nat
  name : String
  icon : String
  type : TxType
deriving DecidableEq

/-- Row of the `transactions` table. -/
structure Transaction where
  id : Nat
  amount : ℚ
  type : TxType
  category_id : Nat
  note : Option String
  date : String
  user_id : Nat
deriving DecidableEq

/-- The relational store as seen by the handlers. -/
structure Db where
  users : List User
  categories : List Category
  transactions : List Transaction
deriving DecidableEq

/-- `GROUP BY key`: one group per distinct key value, carrying the list of
rows having that key. -/
def groupByKey {α κ : Type} [DecidableEq κ] (key : α → κ) (l : List α) :
    List (κ × List α) :=
  (l.map key).dedup.map (fun k => (k, l.filter (fun a => decide (key a = k))))

/-- The `/api/stats` date filter: `AND date >= ? AND date <= ?` is appended
only when both `start_date` and `end_date` are truthy. -/
def matchesRange (sd ed : Option String) (d : String) : Bool :=
  if jsTruthy sd && jsTruthy ed then
    strLe (sd.getD "") d && strLe d (ed.getD "")
  else true

/-- Rows matched by the stats WHERE clause:
`WHERE user_id = ?` plus the optional date filter. -/
def statsMatching (db : Db) (uid : Nat) (sd ed : Option String) :
    List Transaction :=
  db.transactions.filter (fun t => t.user_id == uid && matchesRange sd ed t.date)

/-- Row of the totals query:
`SELECT type, SUM(amount) as total, COUNT(*) as count ... GROUP BY type`. -/
structure TotalsRow where
  type : TxType
  total : ℚ
  count : Nat
deriving DecidableEq

/-- The totals query of `GET /api/stats` (no join with categories). -/
def totalsQuery (db : Db) (uid : Nat) (sd ed : Option String) :
    List TotalsRow :=
  (groupByKey (fun t => t.type) (statsMatching db uid sd ed)).map
    (fun g => ⟨g.1, (g.2.map (fun t => t.amount)).sum, g.2.length⟩)

/-- JS `x || 0` on an optionally-found numeric field (`income?.total || 0`):
`undefined` and `0` are falsy. -/
def jsNumOr0 : Option ℚ → ℚ
  | none => 0
  | some x => if x == 0 then 0 else x

/-- JS `x || 0` on an optionally-found count field. -/
def jsCountOr0 : Option Nat → Nat
  | none => 0
  | some n => if n == 0 then 0 else n

/-- The `summary` object of the `GET /api/stats` response. -/
structure Summary where
  income : ℚ
  expense : ℚ
  balance : ℚ
  income_count : Nat
  expense_count : Nat
deriving DecidableEq

/-- Builds the `summary` object: find the `income` / `expense` rows among
the grouped totals, defaulting each field with `|| 0`, and derive
`balance` as the difference of the two reported totals. -/
def statsSummary (db : Db) (uid : Nat) (sd ed : Option String) : Summary :=
  let rows := totalsQuery db uid sd ed
  let inc := rows.find? (fun r => r.type == TxType.income)
  let ex := rows.find? (fun r => r.type == TxType.expense)
  { income := jsNumOr0 (inc.map (fun r => r.total))
    expense := jsNumOr0 (ex.map (fun r => r.total))
    balance := jsNumOr0 (inc.map (fun r => r.total))
      - jsNumOr0 (ex.map (fun r => r.total))
    income_count := jsCountOr0 (inc.map (fun r => r.count))
    expense_count := jsCountOr0 (ex.map (fun r => r.count)) }

/-- `FROM transactions t JOIN categories c ON t.category_id = c.id`. -/
def joinTxCat (db : Db) : List (Transaction × Category) :=
  db.transactions.flatMap
    (fun t => (db.categories.filter (fun c => c.id == t.category_id)).map
      (fun c => (t, c)))

/-- Row of the by-category query. -/
structure CatRow where
  id : Nat
  name : String
  icon : String
  type : TxType
  total : ℚ
  count : Nat
deriving DecidableEq

/-- One output row of the by-category query from a `GROUP BY c.id` group:
the aggregates over the group plus the category columns taken from a row
of the group (they coincide across the group when category ids are
unique). The empty-group branch is unreachable. -/
def mkCatRow (g : Nat × List (Transaction × Category)) : CatRow :=
  match g.2 with
  | [] => ⟨g.1, "", "", TxType.expense, 0, 0⟩
  | p :: _ =>
    ⟨p.2.id, p.2.name, p.2.icon, p.2.type,
      (g.2.map (fun q => q.1.amount)).sum, g.2.length⟩

/-- Unsorted result of the by-category query: join with categories, filter
by user and (when both bounds are truthy) the date range, `GROUP BY c.id`. -/
def byCategoryRows (db : Db) (uid : Nat) (sd ed : Option String) :
    List CatRow :=
  let rows := (joinTxCat db).filter
    (fun p => p.1.user_id == uid && matchesRange sd ed p.1.date)
  (groupByKey (fun p => p.2.id) rows).map mkCatRow

/-- `ORDER BY total DESC` on by-category rows. -/
def catRowGe (a b : CatRow) : Prop := b.total ≤ a.total

instance : DecidableRel catRowGe :=
  fun a b => inferInstanceAs (Decidable (b.total ≤ a.total))

/-- The `by_category` array of the `GET /api/stats` response. -/
def byCategory (db : Db) (uid : Nat) (sd ed : Option String) : List CatRow :=
  List.insertionSort catRowGe (byCategoryRows db uid sd ed)

/-- Row of the daily query. -/
structure DailyRow where
  date : String
  type : TxType
  total : ℚ
deriving DecidableEq

/-- Unsorted result of the daily query:
`WHERE user_id = ? AND date >= date('now','-30 days') GROUP BY date, type`.
`cutoff` stands for the string `date('now','-30 days')` computes; note the
query has no upper bound on `date`. -/
def dailyRows (db : Db) (uid : Nat) (cutoff : String) : List DailyRow :=
  let rows := db.transactions.filter
    (fun t => t.user_id == uid && strLe cutoff t.date)
  (groupByKey (fun t => (t.date, t.type)) rows).map
    (fun g => ⟨g.1.1, g.1.2, (g.2.map (fun t => t.amount)).sum⟩)

/-- `ORDER BY date DESC` on daily rows. -/
def dailyRowGe (a b : DailyRow) : Prop := strLe b.date a.date = true

instance : DecidableRel dailyRowGe :=
  fun a b => inferInstanceAs (Decidable (strLe b.date a.date = true))

/-- The `daily` array of the `GET /api/stats` response. -/
def daily (db : Db) (uid : Nat) (cutoff : String) : List DailyRow :=
  List.insertionSort dailyRowGe (dailyRows db uid cutoff)

/-- The full `GET /api/stats` response body (authenticated path). Only the
summary and by-category queries receive the `start_date` / `end_date`
parameters; the daily query binds the user id alone. -/
def statsResponse (db : Db) (uid : Nat) (sd ed : Option String)
    (cutoff : String) : Summary × List CatRow × List DailyRow :=
  (statsSummary db uid sd ed, byCategory db uid sd ed, daily db uid cutoff)

/-- Row of the monthly query. -/
structure MonthRow where
  month : String
  type : TxType
  total : ℚ
  count : Nat
deriving DecidableEq

/-- Unsorted result of the monthly query: `strftime('%Y-%m', date)` on a
well-formed `YYYY-MM-DD` date is its first seven characters. -/
def monthlyRows (db : Db) (uid : Nat) : List MonthRow :=
  let rows := db.transactions.filter (fun t => t.user_id == uid)
  (groupByKey (fun t => (t.date.take 7, t.type)) rows).map
    (fun g => ⟨g.1.1, g.1.2, (g.2.map (fun t => t.amount)).sum, g.2.length⟩)

/-- `ORDER BY month DESC` on monthly rows. -/
def monthRowGe (a b : MonthRow) : Prop := strLe b.month a.month = true

instance : DecidableRel monthRowGe :=
  fun a b => inferInstanceAs (Decidable (strLe b.month a.month = true))

/-- The `GET /api/stats/monthly` response body (authenticated path):
grouped over the user's entire history, ordered by month descending,
`LIMIT 24`. -/
def monthly (db : Db) (uid : Nat) : List MonthRow :=
  (List.insertionSort monthRowGe (monthlyRows db uid)).take 24

/-- Optional query parameters of `GET /api/transactions`. The `type`
parameter is modelled at the two values that can match a row; any other
string matches nothing. -/
structure ListParams where
  type : Option TxType
  start_date : Option String
  end_date : Option String
  lim : Nat
  off : Nat

/-- WHERE clause of the transaction-list query, each optional conjunct
appended only when its parameter is truthy. -/
def listMatches (lp : ListParams) (p : Transaction × Category) : Bool :=
  (match lp.type with | some ty => p.1.type == ty | none => true) &&
  (if jsTruthy lp.start_date then strLe (lp.start_date.getD "") p.1.date else true) &&
  (if jsTruthy lp.end_date then strLe p.1.date (lp.end_date.getD "") else true)

/-- `ORDER BY t.date DESC, t.id DESC` on joined transaction rows. -/
def txRowGe (a b : Transaction × Category) : Prop :=
  if a.1.date = b.1.date then b.1.id ≤ a.1.id else strLe b.1.date a.1.date = true

instance : DecidableRel txRowGe := fun a b =>
  inferInstanceAs (Decidable (if a.1.date = b.1.date then b.1.id ≤ a.1.id
    else strLe b.1.date a.1.date = true))

/-- The `GET /api/transactions` result rows (authenticated path): join with
categories, filter by user / optional type / optional bounds, order by date
then id descending, `LIMIT ? OFFSET ?`. Each row is the transaction
together with the joined category (whose name and icon the SELECT adds). -/
def listTransactions (db : Db) (uid : Nat) (lp : ListParams) :
    List (Transaction × Category) :=
  let rows := (joinTxCat db).filter
    (fun p => p.1.user_id == uid && listMatches lp p)
  ((List.insertionSort txRowGe rows).drop lp.off).take lp.lim

/-- Body of a `PUT /api/transactions/:id` request after zod validation:
every field of the create schema made optional. -/
structure UpdatePayload where
  amount : Option ℚ
  type : Option TxType
  category_id : Option Nat
  note : Option String
  date : Option String
deriving DecidableEq

/-- One `field = ?` assignment pushed onto the SET clause. -/
inductive FieldSet
  | amount (v : ℚ)
  | type (v : TxType)
  | category_id (v : Nat)
  | note (v : Option String)
  | date (v : String)
deriving DecidableEq

/-- The SET clause built field by field, in the handler's order; a supplied
`note` is stored as `updates.note || null`, so the empty string becomes
NULL. -/
def buildFieldSets (u : UpdatePayload) : List FieldSet :=
  (match u.amount with | some v => [FieldSet.amount v] | none => []) ++
  (match u.type with | some v => [FieldSet.type v] | none => []) ++
  (match u.category_id with | some v => [FieldSet.category_id v] | none => []) ++
  (match u.note with
    | some s => [FieldSet.note (if s == "" then none else some s)]
    | none => []) ++
  (match u.date with | some v => [FieldSet.date v] | none => [])

/-- Applying one SET assignment to a row. -/
def applyFieldSet (t : Transaction) : FieldSet → Transaction
  | FieldSet.amount v => { t with amount := v }
  | FieldSet.type v => { t with type := v }
  | FieldSet.category_id v => { t with category_id := v }
  | FieldSet.note v => { t with note := v }
  | FieldSet.date v => { t with date := v }

/-- Applying a whole SET clause to a row. -/
def applyFieldSets (sets : List FieldSet) (t : Transaction) : Transaction :=
  sets.foldl applyFieldSet t

/-- Outcome of `PUT /api/transactions/:id`: 400 when no field is supplied,
404 when no row matches `id AND user_id`, otherwise 200 with the updated
row. -/
inductive UpdateResult
  | badRequest
  | notFound
  | ok (t : Transaction)
deriving DecidableEq

/-- `UPDATE transactions SET ... WHERE id = ? AND user_id = ? RETURNING *`
(authenticated path): new store state and response. -/
def updateTx (db : Db) (uid : Nat) (id : Nat) (u : UpdatePayload) :
    Db × UpdateResult :=
  let sets := buildFieldSets u
  if sets.isEmpty then (db, UpdateResult.badRequest)
  else
    let matched := fun t : Transaction => t.id == id && t.user_id == uid
    let db' := { db with transactions :=
      db.transactions.map (fun t => if matched t then applyFieldSets sets t else t) }
    match db.transactions.find? matched with
    | none => (db', UpdateResult.notFound)
    | some t0 => (db', UpdateResult.ok (applyFieldSets sets t0))

/-- Outcome of `DELETE /api/transactions/:id`: 404 when no row matches,
otherwise 200 `{success:true}`. -/
inductive DeleteResult
  | notFound
  | success
deriving DecidableEq

/-- `DELETE FROM transactions WHERE id = ? AND user_id = ? RETURNING id`
(authenticated path): new store state and response. -/
def deleteTx (db : Db) (uid : Nat) (id : Nat) : Db × DeleteResult :=
  let db' := { db with transactions :=
    db.transactions.filter (fun t => !(t.id == id && t.user_id == uid)) }
  match db.transactions.find? (fun t => t.id == id && t.user_id == uid) with
  | none => (db', DeleteResult.notFound)
  | some _ => (db', DeleteResult.success)

/-- JS `parseInt(s)` at radix 10: skip leading whitespace, optional sign,
then the longest digit run; `none` models NaN. -/
def parseIntJS (s : String) : Option Int :=
  let chars := s.data.dropWhile (fun c => c == ' ' || c == '\t' || c == '\n' || c == '\r')
  let signed : Bool × List Char :=
    match chars with
    | '-' :: rest => (true, rest)
    | '+' :: rest => (false, rest)
    | rest => (false, rest)
  let digits := signed.2.takeWhile (fun c => c.isDigit)
  if digits.isEmpty then none
  else
    let n : Nat := digits.foldl (fun acc c => acc * 10 + (c.toNat - 48)) 0
    some (if signed.1 then -(n : Int) else (n : Int))

/-- The credential-resolution core of `authMiddleware`, parameterised by
the reversible decoder (`atob`; `none` models a decode exception, caught by
the handler's try/catch). The decoded text is split on `:`; a missing
second field or an unparseable id cannot match any row (the driver rejects
`undefined`/NaN bindings inside the same try/catch), and the user is then
looked up by id and username. -/
def resolveToken (decode : String → Option String) (users : List User)
    (token : String) : Option User :=
  match decode token with
  | none => none
  | some decoded =>
    let parts := decoded.splitOn ":"
    match parts[1]? with
    | none => none
    | some uname =>
      match parseIntJS (parts.headD "") with
      | none => none
      | some uid =>
        (users.find? (fun u => u.id == uid && u.username == uname)).map
          (fun u => { id := u.id, username := u.username })

/-- `authMiddleware`: the resolved identity set on the context, `none`
unless the `Authorization` header carries a resolvable `Bearer` token. -/
def authMiddleware (decode : String → Option String) (users : List User)
    (authHeader : Option String) : Option User :=
  match authHeader with
  | none => none
  | some h =>
    if h.startsWith "Bearer " then resolveToken decode users (h.drop 7)
    else none

/-- The reported summary total for a transaction type. -/
def summaryTotalOf (s : Summary) : TxType → ℚ
  | TxType.income => s.income
  | TxType.expense => s.expense

/-- The reported summary count for a transaction type. -/
def summaryCountOf (s : Summary) : TxType → Nat
  | TxType.income => s.income_count
  | TxType.expense => s.expense_count

/-- Sum of the by-category totals over the categories of one type. -/
def byCategoryTypeTotal (db : Db) (uid : Nat) (sd ed : Option String)
    (τ : TxType) : ℚ :=
  (((byCategory db uid sd ed).filter (fun r => r.type == τ)).map
    (fun r => r.total)).sum

/-- The store with one transaction row physically removed. -/
def dbErase (db : Db) (t : Transaction) : Db :=
  { db with transactions := db.transactions.erase t }

/-- Sample category (id 5, expense). -/
def catFood : Category := ⟨5, "Food", "F", TxType.expense⟩

/-- Sample income category (id 7). -/
def catSalary : Category := ⟨7, "Salary", "S", TxType.income⟩

/-- Sample transaction of user 1 consistent with its category. -/
def txLunch : Transaction := ⟨1, 50, TxType.expense, 5, none, "2024-03-01", 1⟩

/-- Sample transaction of user 2. -/
def txOther : Transaction := ⟨2, 30, TxType.income, 5, none, "2024-03-02", 2⟩

/-- Transaction of user 1 whose category_id (99) matches no category. -/
def txOrphan : Transaction := ⟨3, 20, TxType.expense, 99, none, "2024-03-03", 1⟩

/-- Expense transaction of user 1 filed under the income category 7. -/
def txMismatch : Transaction := ⟨4, 50, TxType.expense, 7, none, "2024-03-04", 1⟩

/-- Future-dated transaction of user 1. -/
def txFuture : Transaction := ⟨6, 10, TxType.expense, 5, none, "2026-12-31", 1⟩

/-- Store with one consistent transaction of user 1. -/
def dbA : Db := ⟨[⟨1, "alice"⟩], [catFood], [txLunch]⟩

/-- Store holding only a transaction of user 2. -/
def dbB : Db := ⟨[], [catFood], [txOther]⟩

/-- Store with categories but no transactions. -/
def dbBEmpty : Db := ⟨[], [catFood], []⟩

/-- Store whose only transaction references a missing category. -/
def dbOrphan : Db := ⟨[], [catFood], [txOrphan]⟩

/-- Store whose only transaction disagrees with its category's type. -/
def dbTypeMix : Db := ⟨[], [catSalary], [txMismatch]⟩

/-- Store with one future-dated transaction. -/
def dbFuture : Db := ⟨[], [catFood], [txFuture]⟩

/-- The empty store. -/
def dbEmpty : Db := ⟨[], [], []⟩

lemma lexLe_refl (as : List Char) : lexLe as as = true := by
  induction as with
  | nil => rfl
  | cons a as ih => simp [lexLe, ih]

lemma lexLe_total (as bs : List Char) :
    lexLe as bs = true ∨ lexLe bs as = true := by
  induction as generalizing bs with
  | nil => exact Or.inl rfl
  | cons a as ih =>
    cases bs with
    | nil => exact Or.inr rfl
    | cons b bs =>
      rcases Nat.lt_trichotomy a.toNat b.toNat with h | h | h
      · exact Or.inl (by simp [lexLe, h])
      · rcases ih bs with h2 | h2
        · exact Or.inl (by simp [lexLe, h, h2])
        · exact Or.inr (by simp [lexLe, h, h2])
      · exact Or.inr (by simp [lexLe, h])

lemma lexLe_trans (as bs cs : List Char) (h1 : lexLe as bs = true)
    (h2 : lexLe bs cs = true) : lexLe as cs = true := by
  induction as generalizing bs cs with
  | nil => rfl
  | cons a as ih =>
    cases bs with
    | nil => simp [lexLe] at h1
    | cons b bs =>
      cases cs with
      | nil => simp [lexLe] at h2
      | cons c cs =>
        simp only [lexLe] at h1 h2 ⊢
        split_ifs at h1 h2 ⊢ with hab hba hbc hcb hac hca
        all_goals try rfl
        all_goals try omega
        · exact ih bs cs h1 h2

lemma strLe_refl (a : String) : strLe a a = true := lexLe_refl a.data

lemma strLe_total (a b : String) : strLe a b = true ∨ strLe b a = true :=
  lexLe_total a.data b.data

lemma strLe_trans {a b c : String} (h1 : strLe a b = true)
    (h2 : strLe b c = true) : strLe a c = true :=
  lexLe_trans a.data b.data c.data h1 h2

instance : IsTotal DailyRow dailyRowGe :=
  ⟨fun a b => strLe_total b.date a.date⟩

instance : IsTrans DailyRow dailyRowGe :=
  ⟨fun _ _ _ h1 h2 => strLe_trans h2 h1⟩

instance : IsTotal MonthRow monthRowGe :=
  ⟨fun a b => strLe_total b.month a.month⟩

instance : IsTrans MonthRow monthRowGe :=
  ⟨fun _ _ _ h1 h2 => strLe_trans h2 h1⟩

instance : IsTotal CatRow catRowGe :=
  ⟨fun a b => le_total b.total a.total⟩

instance : IsTrans CatRow catRowGe :=
  ⟨fun _ _ _ h1 h2 => le_trans h2 h1⟩

lemma find?_beq_eq {κ : Type} [DecidableEq κ] (l : List κ) (k : κ) :
    l.find? (fun x => x == k) = if k ∈ l then some k else none := by
  induction l with
  | nil => simp
  | cons a l ih =>
    by_cases hak : a = k
    · subst hak; simp
    · rw [List.find?_cons_of_neg _ (by simp [hak]), ih]
      simp [List.mem_cons, Ne.symm hak]

lemma groupByKey_eq_map {α κ : Type} [DecidableEq κ] (key : α → κ)
    (l : List α) :
    groupByKey key l =
      (l.map key).dedup.map
        (fun k => (k, l.filter (fun a => decide (key a = k)))) :=
  rfl

lemma mem_groupByKey {α κ : Type} [DecidableEq κ] {key : α → κ}
    {l : List α} {g : κ × List α} (h : g ∈ groupByKey key l) :
    g.2 = l.filter (fun a => decide (key a = g.1)) ∧ ∃ a ∈ l, key a = g.1 := by
  rcases List.mem_map.mp h with ⟨k, hk, hg⟩
  rcases List.mem_map.mp (List.mem_dedup.mp hk) with ⟨a, ha, hka⟩
  exact ⟨by rw [← hg], ⟨a, ha, by rw [hka, ← hg]⟩⟩

lemma find?_groupByKey {α κ : Type} [DecidableEq κ] (key : α → κ)
    (l : List α) (k : κ) :
    (groupByKey key l).find? (fun g => g.1 == k) =
      if (l.filter (fun a => decide (key a = k))).isEmpty = true then none
      else some (k, l.filter (fun a => decide (key a = k))) := by
  rw [groupByKey_eq_map, List.find?_map]
  have hp : ((fun g : κ × List α => g.1 == k) ∘
      (fun k' => (k', l.filter (fun a => decide (key a = k')))))
        = fun x => x == k := rfl
  rw [hp, find?_beq_eq]
  by_cases hmem : k ∈ (l.map key).dedup
  · have hne : ¬ (l.filter (fun a => decide (key a = k))).isEmpty = true := by
      rcases List.mem_map.mp (List.mem_dedup.mp hmem) with ⟨a, ha, hka⟩
      intro hnil
      rw [List.isEmpty_iff] at hnil
      have : a ∈ l.filter (fun a => decide (key a = k)) :=
        List.mem_filter.mpr ⟨ha, by simp [hka]⟩
      simp [hnil] at this
    simp [hmem, hne]
  · have hnil : (l.filter (fun a => decide (key a = k))).isEmpty = true := by
      rw [List.isEmpty_iff, List.filter_eq_nil_iff]
      intro a ha hka
      exact hmem (List.mem_dedup.mpr (List.mem_map.mpr
        ⟨a, ha, by simpa using hka⟩))
    simp [hmem, hnil]

lemma jsNumOr0_some (x : ℚ) : jsNumOr0 (some x) = x := by
  unfold jsNumOr0
  by_cases h : x = 0 <;> simp [h]

lemma jsCountOr0_some (n : Nat) : jsCountOr0 (some n) = n := by
  unfold jsCountOr0
  by_cases h : n = 0 <;> simp [h]

lemma totalsQuery_find? (db : Db) (uid : Nat) (sd ed : Option String)
    (τ : TxType) :
    (totalsQuery db uid sd ed).find? (fun r => r.type == τ) =
      if ((statsMatching db uid sd ed).filter (fun t => t.type == τ)).isEmpty
        = true
      then none
      else some ⟨τ,
        (((statsMatching db uid sd ed).filter
          (fun t => t.type == τ)).map (fun t => t.amount)).sum,
        ((statsMatching db uid sd ed).filter (fun t => t.type == τ)).length⟩ := by
  have hcv : (fun t : Transaction => t.type == τ)
      = (fun t => decide (t.type = τ)) := rfl
  rw [hcv]
  unfold totalsQuery
  rw [List.find?_map]
  have hp : ((fun r : TotalsRow => r.type == τ) ∘
      (fun g : TxType × List Transaction =>
        (⟨g.1, (g.2.map (fun t => t.amount)).sum, g.2.length⟩ : TotalsRow))) =
      fun g : TxType × List Transaction => g.1 == τ := rfl
  rw [hp, find?_groupByKey]
  by_cases hnil :
      ((statsMatching db uid sd ed).filter
        (fun t => decide (t.type = τ))).isEmpty = true
  · rw [if_pos hnil]
    rw [if_pos hnil]
    rfl
  · rw [if_neg hnil]
    rw [if_neg hnil]
    rfl

lemma summary_total_eq_of_find? (db : Db) (uid : Nat) (sd ed : Option String)
    (τ : TxType)
    (h : summaryTotalOf (statsSummary db uid sd ed) τ =
      jsNumOr0 (((totalsQuery db uid sd ed).find?
        (fun r => r.type == τ)).map (fun r => r.total))) :
    summaryTotalOf (statsSummary db uid sd ed) τ =
      (((statsMatching db uid sd ed).filter (fun t => t.type == τ)).map
        (fun t => t.amount)).sum := by
  rw [h, totalsQuery_find?]
  by_cases hnil :
      ((statsMatching db uid sd ed).filter (fun t => t.type == τ)).isEmpty
        = true
  · rw [List.isEmpty_iff] at hnil
    simp [hnil, jsNumOr0]
  · simp [hnil, jsNumOr0_some]

/-- The summary total reported for a type is the exact sum of the matching
transactions' amounts of that type. -/
lemma statsSummary_total (db : Db) (uid : Nat) (sd ed : Option String)
    (τ : TxType) :
    summaryTotalOf (statsSummary db uid sd ed) τ =
      (((statsMatching db uid sd ed).filter (fun t => t.type == τ)).map
        (fun t => t.amount)).sum := by
  apply summary_total_eq_of_find?
  cases τ <;> rfl

lemma summary_count_eq_of_find? (db : Db) (uid : Nat) (sd ed : Option String)
    (τ : TxType)
    (h : summaryCountOf (statsSummary db uid sd ed) τ =
      jsCountOr0 (((totalsQuery db uid sd ed).find?
        (fun r => r.type == τ)).map (fun r => r.count))) :
    summaryCountOf (statsSummary db uid sd ed) τ =
      ((statsMatching db uid sd ed).filter (fun t => t.type == τ)).length := by
  rw [h, totalsQuery_find?]
  by_cases hnil :
      ((statsMatching db uid sd ed).filter (fun t => t.type == τ)).isEmpty
        = true
  · rw [List.isEmpty_iff] at hnil
    simp [hnil, jsCountOr0]
  · simp [hnil, jsCountOr0_some]

/-- The summary count reported for a type is the number of matching
transactions of that type. -/
lemma statsSummary_count (db : Db) (uid : Nat) (sd ed : Option String)
    (τ : TxType) :
    summaryCountOf (statsSummary db uid sd ed) τ =
      ((statsMatching db uid sd ed).filter (fun t => t.type == τ)).length := by
  apply summary_count_eq_of_find?
  cases τ <;> rfl

lemma sum_map_if_mem {κ : Type} [DecidableEq κ] (ks : List κ) (k₀ : κ)
    (hnd : ks.Nodup) (hk : k₀ ∈ ks) (x : ℚ) (f : κ → ℚ) :
    (ks.map (fun k => if k₀ = k then x + f k else f k)).sum
      = x + (ks.map f).sum := by
  induction ks with
  | nil => simp at hk
  | cons a ks ih =>
    rcases List.nodup_cons.mp hnd with ⟨ha, hnd'⟩
    rw [List.map_cons, List.sum_cons]
    by_cases hk0 : k₀ = a
    · subst hk0
      have hmap : ks.map (fun k => if k₀ = k then x + f k else f k)
          = ks.map f := by
        apply List.map_congr_left
        intro b hb
        have hne : ¬ k₀ = b := fun he => ha (he ▸ hb)
        rw [if_neg hne]
      rw [hmap, if_pos rfl, List.map_cons, List.sum_cons]
      ring
    · have hk' : k₀ ∈ ks := by
        rcases List.mem_cons.mp hk with h | h
        · exact absurd h hk0
        · exact h
      rw [if_neg hk0, ih hnd' hk', List.map_cons, List.sum_cons]
      ring

lemma sum_fiber_partition {α κ : Type} [DecidableEq κ] (key : α → κ)
    (h : α → ℚ) (ks : List κ) (l : List α) (hnd : ks.Nodup)
    (hcov : ∀ a ∈ l, key a ∈ ks) :
    (ks.map (fun k =>
      ((l.filter (fun a => decide (key a = k))).map h).sum)).sum
      = (l.map h).sum := by
  induction l with
  | nil => simp
  | cons a l ih =>
    have hcov' : ∀ b ∈ l, key b ∈ ks :=
      fun b hb => hcov b (List.mem_cons_of_mem a hb)
    have hstep : ∀ k ∈ ks,
        (((a :: l).filter (fun x => decide (key x = k))).map h).sum =
          if key a = k then
            h a + ((l.filter (fun x => decide (key x = k))).map h).sum
          else ((l.filter (fun x => decide (key x = k))).map h).sum := by
      intro k _
      rw [List.filter_cons]
      by_cases hka : key a = k
      · simp [hka]
      · simp [hka]
    rw [List.map_congr_left hstep, sum_map_if_mem ks (key a) hnd
      (hcov a (List.mem_cons_self a l)) (h a)
      (fun k => ((l.filter (fun x => decide (key x = k))).map h).sum),
      ih hcov']
    simp

lemma sum_fibers {α κ : Type} [DecidableEq κ] (key : α → κ) (h : α → ℚ)
    (l : List α) :
    (((l.map key).dedup).map
      (fun k => ((l.filter (fun a => decide (key a = k))).map h).sum)).sum
      = (l.map h).sum :=
  sum_fiber_partition key h (l.map key).dedup l (List.nodup_dedup _)
    (fun a ha => List.mem_dedup.mpr (List.mem_map_of_mem _ ha))

lemma sum_map_ite_filter {α : Type} (p : α → Bool) (v : α → ℚ)
    (l : List α) :
    (l.map (fun a => if p a then v a else 0)).sum
      = ((l.filter p).map v).sum := by
  induction l with
  | nil => rfl
  | cons a l ih =>
    by_cases hp : p a = true <;> simp [List.filter_cons, hp, ih]

lemma sum_map_flatMap {α β : Type} (l : List α) (f : α → List β)
    (h : β → ℚ) :
    ((l.flatMap f).map h).sum
      = (l.map (fun a => ((f a).map h).sum)).sum := by
  induction l with
  | nil => rfl
  | cons _ l ih =>
    simp [List.flatMap_cons, List.map_append, List.sum_append, ih]

lemma filter_eq_singleton_of_nodup_key (l : List Category)
    (hnd : (l.map (fun c => c.id)).Nodup) (c₀ : Category) (hc : c₀ ∈ l)
    (k : Nat) (hk : c₀.id = k) :
    l.filter (fun c => c.id == k) = [c₀] := by
  induction l with
  | nil => simp at hc
  | cons c l ih =>
    rw [List.map_cons] at hnd
    rcases List.nodup_cons.mp hnd with ⟨hcid, hnd'⟩
    rcases List.mem_cons.mp hc with hceq | hcl
    · rw [List.filter_cons_of_pos (by simp [← hceq, hk])]
      have hck : c.id = k := by rw [← hceq]; exact hk
      have hnil : l.filter (fun c' => c'.id == k) = [] := by
        rw [List.filter_eq_nil_iff]
        intro c' hc' hbeq
        apply hcid
        apply List.mem_map.mpr
        refine ⟨c', hc', ?_⟩
        rw [beq_iff_eq] at hbeq
        simp [hbeq, hck]
      rw [hnil, hceq]
    · have hne : ¬ (c.id == k) = true := by
        rw [beq_iff_eq]
        intro he
        apply hcid
        exact List.mem_map.mpr ⟨c₀, hcl, by simp [hk, he]⟩
      rw [List.filter_cons, if_neg hne]
      exact ih hnd' hcl

lemma mem_joinTxCat {db : Db} {t : Transaction} {c : Category} :
    (t, c) ∈ joinTxCat db ↔
      t ∈ db.transactions ∧ c ∈ db.categories ∧ c.id = t.category_id := by
  unfold joinTxCat
  constructor
  · intro h
    rcases List.mem_flatMap.mp h with ⟨t', ht', hmem⟩
    rcases List.mem_map.mp hmem with ⟨c', hc', heq⟩
    have ht2 : t' = t := congrArg Prod.fst heq
    have hc2 : c' = c := congrArg Prod.snd heq
    subst ht2
    subst hc2
    rcases List.mem_filter.mp hc' with ⟨hcmem, hcid⟩
    exact ⟨ht', hcmem, by simpa using hcid⟩
  · rintro ⟨ht, hcmem, hcid⟩
    exact List.mem_flatMap.mpr ⟨t, ht, List.mem_map.mpr
      ⟨c, List.mem_filter.mpr ⟨hcmem, by simp [hcid]⟩, rfl⟩⟩

/-- C1: for every user and every optional date range, the summary reported
by GET /api/stats satisfies balance = income - expense, each type's
reported total is the exact sum of that user's matching transactions'
amounts (exact rational arithmetic, no loss beyond the amount's native
precision), each type's count is the exact number of such transactions,
and a type with no matching transactions is reported with total 0 and
count 0. -/
theorem summary_balance_and_totals_exact (db : Db) (uid : Nat)
    (sd ed : Option String) :
    (statsSummary db uid sd ed).balance
        = (statsSummary db uid sd ed).income
          - (statsSummary db uid sd ed).expense
    ∧ (∀ τ, summaryTotalOf (statsSummary db uid sd ed) τ =
        (((statsMatching db uid sd ed).filter (fun t => t.type == τ)).map
          (fun t => t.amount)).sum)
    ∧ (∀ τ, summaryCountOf (statsSummary db uid sd ed) τ =
        ((statsMatching db uid sd ed).filter (fun t => t.type == τ)).length)
    ∧ (∀ τ, (statsMatching db uid sd ed).filter (fun t => t.type == τ) = [] →
        summaryTotalOf (statsSummary db uid sd ed) τ = 0
        ∧ summaryCountOf (statsSummary db uid sd ed) τ = 0) := by
  refine ⟨rfl, statsSummary_total db uid sd ed,
    statsSummary_count db uid sd ed, ?_⟩
  intro τ hnil
  rw [statsSummary_total, statsSummary_count, hnil]
  simp

/-- Witness for C1 at a concrete store where user 1 has no income
transactions: the income total and count are reported as 0. -/
theorem summary_balance_and_totals_exact_witness :
    (statsMatching dbB 1 none none).filter (fun t => t.type == TxType.income)
      = []
    ∧ summaryTotalOf (statsSummary dbB 1 none none) TxType.income = 0
    ∧ summaryCountOf (statsSummary dbB 1 none none) TxType.income = 0 :=
  ⟨by decide, (summary_balance_and_totals_exact dbB 1 none none).2.2.2
    TxType.income (by decide)⟩

/-- C7: a PUT /api/transactions/:id request supplying only the amount
field rewrites each row matching id and owner with only its amount field
replaced (type, category_id, note and date are carried over unchanged),
and answers 404 exactly when no row matches, otherwise 200 with the
updated row. -/
theorem update_amount_only_frame (db : Db) (uid id : Nat) (a : ℚ) :
    updateTx db uid id ⟨some a, none, none, none, none⟩ =
      ({ db with transactions := db.transactions.map (fun t =>
          if t.id == id && t.user_id == uid then { t with amount := a }
          else t) },
        match db.transactions.find?
            (fun t => t.id == id && t.user_id == uid) with
        | none => UpdateResult.notFound
        | some t0 => UpdateResult.ok { t0 with amount := a }) := by
  unfold updateTx
  cases hfind : db.transactions.find?
      (fun t => t.id == id && t.user_id == uid) with
  | none =>
    simp [hfind, buildFieldSets, applyFieldSets, applyFieldSet]
  | some t0 =>
    simp [hfind, buildFieldSets, applyFieldSets, applyFieldSet]

/-- C8: deleting a transaction id that does not exist for the acting user
(missing entirely, or owned by another user) answers 404 — never success —
and leaves the transaction store unchanged. -/
theorem delete_missing_returns_not_found (db : Db) (uid id : Nat)
    (h : db.transactions.all (fun t => !(t.id == id && t.user_id == uid))
      = true) :
    deleteTx db uid id = (db, DeleteResult.notFound) := by
  have hall := List.all_eq_true.mp h
  have hfind : db.transactions.find?
      (fun t => t.id == id && t.user_id == uid) = none :=
    List.find?_eq_none.mpr (fun t ht => by
      have hb := hall t ht
      rw [Bool.not_eq_true'] at hb
      simp [hb])
  have hfilter : db.transactions.filter
      (fun t => !(t.id == id && t.user_id == uid)) = db.transactions :=
    List.filter_eq_self.mpr (fun t ht => hall t ht)
  simp only [deleteTx]
  rw [hfind, hfilter]

/-- Witness for C8: deleting id 99 (not present) as user 1 returns 404 and
leaves the store untouched. -/
theorem delete_missing_returns_not_found_witness :
    (dbA.transactions.all (fun t => !(t.id == 99 && t.user_id == 1)) = true)
    ∧ deleteTx dbA 1 99 = (dbA, DeleteResult.notFound) :=
  ⟨by decide, delete_missing_returns_not_found dbA 1 99 (by decide)⟩

/-- C9: GET /api/stats applies the start_date/end_date filter to the
summary and by-category queries only when both parameters are truthy
(supplied and non-empty); when at most one is, it is silently ignored and
both aggregates equal the unfiltered, whole-history ones. -/
theorem stats_range_requires_both_params (db : Db) (uid : Nat)
    (sd ed : Option String) (h : (jsTruthy sd && jsTruthy ed) = false) :
    statsSummary db uid sd ed = statsSummary db uid none none
    ∧ byCategory db uid sd ed = byCategory db uid none none := by
  have hmr : ∀ d, matchesRange sd ed d = matchesRange none none d := by
    intro d
    simp [matchesRange, h, show jsTruthy none = false from rfl]
  have hm : statsMatching db uid sd ed = statsMatching db uid none none := by
    unfold statsMatching
    apply List.filter_congr
    intro t _
    rw [hmr]
  have hby : byCategoryRows db uid sd ed = byCategoryRows db uid none none := by
    unfold byCategoryRows
    rw [List.filter_congr (fun p _ => by rw [hmr] :
      ∀ p ∈ joinTxCat db,
        (p.1.user_id == uid && matchesRange sd ed p.1.date)
          = (p.1.user_id == uid && matchesRange none none p.1.date))]
  constructor
  · unfold statsSummary totalsQuery
    rw [hm]
  · unfold byCategory
    rw [hby]

/-- Witness for C9: with only start_date supplied the stats equal the
unfiltered ones. -/
theorem stats_range_requires_both_params_witness :
    ((jsTruthy (some "2024-01-01") && jsTruthy none) = false)
    ∧ (statsSummary dbA 1 (some "2024-01-01") none
        = statsSummary dbA 1 none none
      ∧ byCategory dbA 1 (some "2024-01-01") none
        = byCategory dbA 1 none none) :=
  ⟨by decide, stats_range_requires_both_params dbA 1 (some "2024-01-01") none
    (by decide)⟩

lemma decide_pair_eq_expand {α β : Type} [DecidableEq α] [DecidableEq β]
    [BEq α] [LawfulBEq α] [BEq β] [LawfulBEq β] (a : α) (b : β)
    (q : α × β) : (decide ((a, b) = q)) = (a == q.1 && b == q.2) := by
  rw [Bool.eq_iff_iff]
  simp [Prod.ext_iff]

lemma daily_mem_spec {db : Db} {uid : Nat} {cutoff : String} {r : DailyRow}
    (h : r ∈ daily db uid cutoff) :
    strLe cutoff r.date = true
    ∧ r.total = (((db.transactions.filter
          (fun t => t.user_id == uid && strLe cutoff t.date)).filter
        (fun t => t.date == r.date && t.type == r.type)).map
        (fun t => t.amount)).sum := by
  have hmem : r ∈ dailyRows db uid cutoff :=
    ((List.perm_insertionSort dailyRowGe _).mem_iff).mp h
  simp only [dailyRows] at hmem
  rcases List.mem_map.mp hmem with ⟨g, hg, hr⟩
  rcases mem_groupByKey hg with ⟨hfib, a, ha, hkey⟩
  have hdate : r.date = g.1.1 := by rw [← hr]
  have htype : r.type = g.1.2 := by rw [← hr]
  constructor
  · rcases List.mem_filter.mp ha with ⟨_, hpred⟩
    simp only [Bool.and_eq_true] at hpred
    have hda : g.1.1 = a.date := (congrArg Prod.fst hkey).symm
    rw [hdate, hda]
    exact hpred.2
  · have htot : r.total = (g.2.map (fun t => t.amount)).sum := by rw [← hr]
    rw [htot, hfib, hdate, htype]
    have hfc : ∀ x ∈ db.transactions.filter
        (fun t => t.user_id == uid && strLe cutoff t.date),
        (decide ((x.date, x.type) = g.1))
          = (x.date == g.1.1 && x.type == g.1.2) :=
      fun x _ => decide_pair_eq_expand x.date x.type g.1
    rw [List.filter_congr hfc]


lemma groupByKey_keys_nodup {α κ : Type} [DecidableEq κ] (key : α → κ)
    (l : List α) : ((groupByKey key l).map (fun g => g.1)).Nodup := by
  rw [groupByKey_eq_map, List.map_map]
  have hcomp : ((fun g : κ × List α => g.1) ∘
      (fun k => (k, l.filter (fun a => decide (key a = k))))) = id := rfl
  rw [hcomp, List.map_id]
  exact List.nodup_dedup _

lemma daily_keys_nodup (db : Db) (uid : Nat) (cutoff : String) :
    ((daily db uid cutoff).map (fun r => (r.date, r.type))).Nodup := by
  have h1 : ((dailyRows db uid cutoff).map
      (fun r => (r.date, r.type))).Nodup := by
    simp only [dailyRows]
    rw [List.map_map]
    have hcomp : ((fun r : DailyRow => (r.date, r.type)) ∘
        (fun g : (String × TxType) × List Transaction =>
          (⟨g.1.1, g.1.2, (g.2.map (fun t => t.amount)).sum⟩ : DailyRow)))
        = fun g => g.1 := rfl
    rw [hcomp]
    exact groupByKey_keys_nodup _ _
  exact (((List.perm_insertionSort dailyRowGe _).map _).nodup_iff).mpr h1

/-- C4, corrected: the daily breakdown of GET /api/stats contains only
dates on or after the 30-day cutoff (but has no upper bound, so dates
after "now" may appear — hence the correction), holds one row per
(date, type) pair whose total is the sum of the user's transactions at
that date and type within the window, is ordered by date descending, and
is unaffected by the explicit start_date/end_date parameters. -/
theorem daily_trailing_window_amended (db : Db) (uid : Nat)
    (cutoff : String) :
    (∀ r ∈ daily db uid cutoff, strLe cutoff r.date = true)
    ∧ (∀ r ∈ daily db uid cutoff, r.total =
        (((db.transactions.filter
            (fun t => t.user_id == uid && strLe cutoff t.date)).filter
          (fun t => t.date == r.date && t.type == r.type)).map
          (fun t => t.amount)).sum)
    ∧ ((daily db uid cutoff).map (fun r => (r.date, r.type))).Nodup
    ∧ (daily db uid cutoff).Pairwise (fun a b => strLe b.date a.date = true)
    ∧ (∀ sd ed sd' ed',
        (statsResponse db uid sd ed cutoff).2.2
          = (statsResponse db uid sd' ed' cutoff).2.2) := by
  refine ⟨fun r hr => (daily_mem_spec hr).1, fun r hr => (daily_mem_spec hr).2,
    daily_keys_nodup db uid cutoff, ?_, fun _ _ _ _ => rfl⟩
  exact List.sorted_insertionSort dailyRowGe _

/-- Counterexample to C4 as stated: with "now" = 2026-10-11 (cutoff
2026-09-11), a future-dated transaction (2026-12-31) appears in the daily
breakdown even though its date is not within the trailing 30 days ending
"now" — the query has no upper bound on date. -/
theorem daily_trailing_window_counterexample :
    ((daily dbFuture 1 "2026-09-11").map (fun r => r.date)).all
      (fun d => strLe d "2026-10-11") = false := by
  rfl

/-- Witness for C4 (amended) at a concrete store. -/
theorem daily_trailing_window_amended_witness :
    (∀ r ∈ daily dbFuture 1 "2026-09-11", strLe "2026-09-11" r.date = true)
    ∧ (∀ r ∈ daily dbFuture 1 "2026-09-11", r.total =
        (((dbFuture.transactions.filter
            (fun t => t.user_id == 1 && strLe "2026-09-11" t.date)).filter
          (fun t => t.date == r.date && t.type == r.type)).map
          (fun t => t.amount)).sum)
    ∧ ((daily dbFuture 1 "2026-09-11").map
        (fun r => (r.date, r.type))).Nodup
    ∧ (daily dbFuture 1 "2026-09-11").Pairwise
        (fun a b => strLe b.date a.date = true)
    ∧ (∀ sd ed sd' ed',
        (statsResponse dbFuture 1 sd ed "2026-09-11").2.2
          = (statsResponse dbFuture 1 sd' ed' "2026-09-11").2.2) :=
  daily_trailing_window_amended dbFuture 1 "2026-09-11"

lemma monthly_mem_spec {db : Db} {uid : Nat} {r : MonthRow}
    (h : r ∈ monthly db uid) :
    r.total = (((db.transactions.filter (fun t => t.user_id == uid)).filter
        (fun t => t.date.take 7 == r.month && t.type == r.type)).map
        (fun t => t.amount)).sum
    ∧ r.count = ((db.transactions.filter (fun t => t.user_id == uid)).filter
        (fun t => t.date.take 7 == r.month && t.type == r.type)).length := by
  have hmem0 : r ∈ List.insertionSort monthRowGe (monthlyRows db uid) :=
    List.mem_of_mem_take h
  have hmem : r ∈ monthlyRows db uid :=
    ((List.perm_insertionSort monthRowGe _).mem_iff).mp hmem0
  simp only [monthlyRows] at hmem
  rcases List.mem_map.mp hmem with ⟨g, hg, hr⟩
  have hfib := (mem_groupByKey hg).1
  have hmonth : r.month = g.1.1 := by rw [← hr]
  have htype : r.type = g.1.2 := by rw [← hr]
  have hfc : ∀ x ∈ db.transactions.filter (fun t => t.user_id == uid),
      (decide ((x.date.take 7, x.type) = g.1))
        = (x.date.take 7 == g.1.1 && x.type == g.1.2) :=
    fun x _ => decide_pair_eq_expand (x.date.take 7) x.type g.1
  constructor
  · have htot : r.total = (g.2.map (fun t => t.amount)).sum := by rw [← hr]
    rw [htot, hfib, hmonth, htype, List.filter_congr hfc]
  · have hcnt : r.count = g.2.length := by rw [← hr]
    rw [hcnt, hfib, hmonth, htype, List.filter_congr hfc]

lemma monthly_keys_nodup (db : Db) (uid : Nat) :
    ((monthly db uid).map (fun r => (r.month, r.type))).Nodup := by
  have h1 : ((monthlyRows db uid).map
      (fun r => (r.month, r.type))).Nodup := by
    simp only [monthlyRows]
    rw [List.map_map]
    have hcomp : ((fun r : MonthRow => (r.month, r.type)) ∘
        (fun g : (String × TxType) × List Transaction =>
          (⟨g.1.1, g.1.2, (g.2.map (fun t => t.amount)).sum,
            g.2.length⟩ : MonthRow))) = fun g => g.1 := rfl
    rw [hcomp]
    exact groupByKey_keys_nodup _ _
  have h2 : ((List.insertionSort monthRowGe (monthlyRows db uid)).map
      (fun r => (r.month, r.type))).Nodup :=
    (((List.perm_insertionSort monthRowGe _).map _).nodup_iff).mpr h1
  unfold monthly
  rw [List.map_take]
  exact (List.take_sublist _ _).nodup h2

/-- C5: GET /api/stats/monthly returns at most 24 rows, at most one per
(calendar month, type) pair, ordered by month descending, and each row
carries the summed amount and count of the user's transactions of that
month and type over the entire history (the endpoint accepts no
date-range filter). -/
theorem monthly_capped_and_sorted (db : Db) (uid : Nat) :
    (monthly db uid).length ≤ 24
    ∧ (monthly db uid).Pairwise (fun a b => strLe b.month a.month = true)
    ∧ ((monthly db uid).map (fun r => (r.month, r.type))).Nodup
    ∧ (∀ r ∈ monthly db uid,
        r.total = (((db.transactions.filter
            (fun t => t.user_id == uid)).filter
          (fun t => t.date.take 7 == r.month && t.type == r.type)).map
          (fun t => t.amount)).sum
        ∧ r.count = ((db.transactions.filter
            (fun t => t.user_id == uid)).filter
          (fun t => t.date.take 7 == r.month && t.type == r.type)).length) := by
  refine ⟨?_, ?_, monthly_keys_nodup db uid,
    fun r hr => monthly_mem_spec hr⟩
  · unfold monthly
    rw [List.length_take]
    exact min_le_left _ _
  · exact (List.sorted_insertionSort monthRowGe _).sublist
      (List.take_sublist _ _)

/-- Witness for C5 at a concrete store. -/
theorem monthly_capped_and_sorted_witness :
    (monthly dbA 1).length ≤ 24
    ∧ (monthly dbA 1).Pairwise (fun a b => strLe b.month a.month = true)
    ∧ ((monthly dbA 1).map (fun r => (r.month, r.type))).Nodup
    ∧ (∀ r ∈ monthly dbA 1,
        r.total = (((dbA.transactions.filter
            (fun t => t.user_id == 1)).filter
          (fun t => t.date.take 7 == r.month && t.type == r.type)).map
          (fun t => t.amount)).sum
        ∧ r.count = ((dbA.transactions.filter
            (fun t => t.user_id == 1)).filter
          (fun t => t.date.take 7 == r.month && t.type == r.type)).length) :=
  monthly_capped_and_sorted dbA 1


/-- C6: for every bearer credential string (and any decoder behaviour and
user set), the identity gate is a total function that resolves the
credential to the id/username pair of some stored user or to null; it
returns null when the reversible decoding fails (the decoder models atob,
whose exception the handler catches), when the decoded text has no second
colon-separated field, when the subject id does not parse to an integer,
and when the id/username lookup misses — it never raises, being total. -/
theorem identity_gate_null_or_user (decode : String → Option String)
    (users : List User) (token : String) :
    (resolveToken decode users token = none
      ∨ ∃ u ∈ users, resolveToken decode users token
          = some { id := u.id, username := u.username })
    ∧ (decode token = none → resolveToken decode users token = none)
    ∧ (∀ d, decode token = some d → (d.splitOn ":")[1]? = none →
        resolveToken decode users token = none)
    ∧ (∀ d, decode token = some d →
        parseIntJS ((d.splitOn ":").headD "") = none →
        resolveToken decode users token = none)
    ∧ (∀ d uname uid, decode token = some d →
        (d.splitOn ":")[1]? = some uname →
        parseIntJS ((d.splitOn ":").headD "") = some uid →
        users.find? (fun u => u.id == uid && u.username == uname) = none →
        resolveToken decode users token = none) := by
  refine ⟨?_, ?_, ?_, ?_, ?_⟩
  · cases hdec : decode token with
    | none => exact Or.inl (by simp [resolveToken, hdec])
    | some d =>
      cases hu : (d.splitOn ":")[1]? with
      | none => exact Or.inl (by simp [resolveToken, hdec, hu])
      | some uname =>
        cases hp : parseIntJS ((d.splitOn ":").headD "") with
        | none =>
          refine Or.inl ?_
          have hp' := hp
          simp only [List.headD_eq_head?_getD] at hp'
          simp [resolveToken, hdec, hu, hp']
        | some uid =>
          have hp' := hp
          simp only [List.headD_eq_head?_getD] at hp'
          cases hf : users.find?
              (fun u => u.id == uid && u.username == uname) with
          | none => exact Or.inl (by simp [resolveToken, hdec, hu, hp', hf])
          | some u =>
            refine Or.inr ⟨u, List.mem_of_find?_eq_some hf, ?_⟩
            simp [resolveToken, hdec, hu, hp', hf]
  · intro hdec
    simp [resolveToken, hdec]
  · intro d hdec hu
    simp [resolveToken, hdec, hu]
  · intro d hdec hp
    have hp' := hp
    simp only [List.headD_eq_head?_getD] at hp'
    cases hu : (d.splitOn ":")[1]? with
    | none => simp [resolveToken, hdec, hu]
    | some uname => simp [resolveToken, hdec, hu, hp']
  · intro d uname uid hdec hu hp hf
    have hp' := hp
    simp only [List.headD_eq_head?_getD] at hp'
    simp [resolveToken, hdec, hu, hp', hf]

/-- Witness for C6: a decoder that always fails makes the gate answer
null. -/
theorem identity_gate_null_or_user_witness :
    resolveToken (fun _ => none) [] "token" = none :=
  (identity_gate_null_or_user (fun _ => none) [] "token").2.1 rfl

lemma flatMap_erase_of_nil {α β : Type} [DecidableEq α] (l : List α)
    (f : α → List β) (t : α) (hf : f t = []) :
    l.flatMap f = (l.erase t).flatMap f := by
  induction l with
  | nil => rfl
  | cons a l ih =>
    rw [List.erase_cons]
    by_cases hat : a = t
    · rw [if_pos (by simp [hat])]
      rw [List.flatMap_cons, hat, hf]
      simp
    · rw [if_neg (by simp [hat])]
      rw [List.flatMap_cons, List.flatMap_cons, ih]

/-- C10: a transaction whose category_id matches no category row is
invisible to the category join — it appears in no row of
GET /api/transactions and removing it leaves by_category unchanged — yet
its amount and count are still included in the summary totals of its type
for the same user and range. -/
theorem orphan_category_join_discrepancy (db : Db) (uid : Nat)
    (sd ed : Option String) (t : Transaction)
    (h1 : t ∈ db.transactions) (h2 : t.user_id = uid)
    (h3 : matchesRange sd ed t.date = true)
    (h4 : ∀ c ∈ db.categories, c.id ≠ t.category_id) :
    (∀ c, (t, c) ∉ joinTxCat db)
    ∧ (∀ lp, ∀ p ∈ listTransactions db uid lp, p.1 ≠ t)
    ∧ byCategory db uid sd ed = byCategory (dbErase db t) uid sd ed
    ∧ summaryTotalOf (statsSummary db uid sd ed) t.type
        = t.amount
          + summaryTotalOf (statsSummary (dbErase db t) uid sd ed) t.type
    ∧ summaryCountOf (statsSummary db uid sd ed) t.type
        = 1 + summaryCountOf (statsSummary (dbErase db t) uid sd ed) t.type := by
  have hnotin : ∀ c, (t, c) ∉ joinTxCat db := by
    intro c hc
    rcases mem_joinTxCat.mp hc with ⟨-, hcmem, hcid⟩
    exact h4 c hcmem hcid
  have hjoin : joinTxCat db = joinTxCat (dbErase db t) := by
    unfold joinTxCat dbErase
    apply flatMap_erase_of_nil
    rw [List.filter_eq_nil_iff.mpr (fun c hc => by simp [h4 c hc])]
    rfl
  have hpred : (t.user_id == uid && matchesRange sd ed t.date) = true := by
    simp [h2, h3]
  have hp2 : (statsMatching db uid sd ed).Perm
      (t :: statsMatching (dbErase db t) uid sd ed) := by
    unfold statsMatching dbErase
    have h := (List.perm_cons_erase h1).filter
      (fun x => x.user_id == uid && matchesRange sd ed x.date)
    rw [List.filter_cons, if_pos hpred] at h
    exact h
  have hp3 : ((statsMatching db uid sd ed).filter
      (fun x => x.type == t.type)).Perm
        (t :: (statsMatching (dbErase db t) uid sd ed).filter
          (fun x => x.type == t.type)) := by
    have h := hp2.filter (fun x => x.type == t.type)
    rw [List.filter_cons, if_pos (by simp)] at h
    exact h
  refine ⟨hnotin, ?_, ?_, ?_, ?_⟩
  · intro lp p hp hpt
    apply hnotin p.2
    have hp' : p ∈ List.insertionSort txRowGe ((joinTxCat db).filter
        (fun q => q.1.user_id == uid && listMatches lp q)) :=
      List.mem_of_mem_drop (List.mem_of_mem_take hp)
    have hp2' : p ∈ (joinTxCat db).filter
        (fun q => q.1.user_id == uid && listMatches lp q) :=
      ((List.perm_insertionSort txRowGe _).mem_iff).mp hp'
    have hp3' : p ∈ joinTxCat db := (List.mem_filter.mp hp2').1
    rw [← hpt]
    exact hp3'
  · unfold byCategory byCategoryRows
    rw [hjoin]
  · rw [statsSummary_total, statsSummary_total,
      (hp3.map (fun x => x.amount)).sum_eq, List.map_cons, List.sum_cons]
  · rw [statsSummary_count, statsSummary_count, hp3.length_eq,
      List.length_cons]
    omega

/-- Witness for C10 at a concrete store: txOrphan references category 99,
which does not exist. -/
theorem orphan_category_join_discrepancy_witness :
    (txOrphan ∈ dbOrphan.transactions ∧ txOrphan.user_id = 1
      ∧ matchesRange none none txOrphan.date = true
      ∧ (∀ c ∈ dbOrphan.categories, c.id ≠ txOrphan.category_id))
    ∧ ((∀ c, (txOrphan, c) ∉ joinTxCat dbOrphan)
      ∧ (∀ lp, ∀ p ∈ listTransactions dbOrphan 1 lp, p.1 ≠ txOrphan)
      ∧ byCategory dbOrphan 1 none none
          = byCategory (dbErase dbOrphan txOrphan) 1 none none
      ∧ summaryTotalOf (statsSummary dbOrphan 1 none none) txOrphan.type
          = txOrphan.amount
            + summaryTotalOf
              (statsSummary (dbErase dbOrphan txOrphan) 1 none none)
              txOrphan.type
      ∧ summaryCountOf (statsSummary dbOrphan 1 none none) txOrphan.type
          = 1 + summaryCountOf
              (statsSummary (dbErase dbOrphan txOrphan) 1 none none)
              txOrphan.type) :=
  ⟨⟨List.mem_singleton.mpr rfl, rfl, rfl, by decide⟩,
    orphan_category_join_discrepancy dbOrphan 1 none none txOrphan
      (List.mem_singleton.mpr rfl) rfl rfl (by decide)⟩


lemma filter_and_eq_nested {α : Type} (p q : α → Bool) (l : List α) :
    l.filter (fun a => p a && q a) = (l.filter p).filter q := by
  rw [List.filter_filter]
  exact List.filter_congr (fun a _ => Bool.and_comm _ _)

lemma flatMap_filter {α β : Type} (b : α → Bool) (f : α → List β)
    (l : List α) :
    (l.filter b).flatMap f = l.flatMap (fun a => if b a then f a else []) := by
  induction l with
  | nil => rfl
  | cons a l ih =>
    rw [List.filter_cons, List.flatMap_cons]
    by_cases hb : b a = true
    · rw [if_pos hb, List.flatMap_cons, ih, if_pos hb]
    · rw [if_neg hb, ih, if_neg hb, List.nil_append]

lemma find?_and_filter {α : Type} (p q : α → Bool) (l : List α) :
    l.find? (fun a => p a && q a)
      = (l.filter q).find? (fun a => p a && q a) := by
  induction l with
  | nil => rfl
  | cons a l ih =>
    rw [List.filter_cons]
    by_cases hq : q a = true
    · rw [if_pos hq]
      by_cases hp : p a = true
      · rw [List.find?_cons_of_pos _ (by simp [hp, hq]),
          List.find?_cons_of_pos _ (by simp [hp, hq])]
      · rw [List.find?_cons_of_neg _ (by simp [hp]),
          List.find?_cons_of_neg _ (by simp [hp]), ih]
    · rw [if_neg hq, List.find?_cons_of_neg _ (by simp [hq]), ih]

lemma joinTxCat_filter_user (db : Db) (uid : Nat) :
    (joinTxCat db).filter (fun p => p.1.user_id == uid)
      = (db.transactions.filter (fun t => t.user_id == uid)).flatMap
          (fun t => (db.categories.filter
            (fun c => c.id == t.category_id)).map (fun c => (t, c))) := by
  unfold joinTxCat
  rw [List.filter_flatMap, flatMap_filter]
  apply List.flatMap_congr
  intro t _
  rw [List.filter_map]
  by_cases ht : (t.user_id == uid) = true
  · rw [if_pos ht]
    congr 1
    apply List.filter_eq_self.mpr
    intro c _
    exact ht
  · rw [if_neg ht]
    rw [List.filter_eq_nil_iff.mpr (fun c _ => by simpa using ht)]
    rfl

lemma applyFieldSets_keeps_user_id (sets : List FieldSet)
    (t : Transaction) : (applyFieldSets sets t).user_id = t.user_id := by
  induction sets generalizing t with
  | nil => rfl
  | cons s sets ih =>
    rw [applyFieldSets, List.foldl_cons]
    have h := ih (applyFieldSet t s)
    rw [applyFieldSets] at h
    rw [h]
    cases s <;> rfl

/-- C3: per-user isolation. If two stores agree on the categories and on
the acting user's own transactions, every read the user can issue (list,
stats summary, by-category, daily, monthly) returns identical results,
and update/delete return identical responses; moreover update and delete
never change any other user's rows. A user can therefore neither observe
nor modify another user's transactions through any of these operations. -/
theorem user_isolation (db1 db2 : Db) (uid : Nat)
    (hc : db1.categories = db2.categories)
    (ht : db1.transactions.filter (fun t => t.user_id == uid)
      = db2.transactions.filter (fun t => t.user_id == uid)) :
    (∀ sd ed, statsSummary db1 uid sd ed = statsSummary db2 uid sd ed)
    ∧ (∀ sd ed, byCategory db1 uid sd ed = byCategory db2 uid sd ed)
    ∧ (∀ cutoff, daily db1 uid cutoff = daily db2 uid cutoff)
    ∧ monthly db1 uid = monthly db2 uid
    ∧ (∀ lp, listTransactions db1 uid lp = listTransactions db2 uid lp)
    ∧ (∀ id u, (updateTx db1 uid id u).2 = (updateTx db2 uid id u).2)
    ∧ (∀ id, (deleteTx db1 uid id).2 = (deleteTx db2 uid id).2)
    ∧ (∀ id u, (updateTx db1 uid id u).1.transactions.filter
          (fun t => !(t.user_id == uid))
        = db1.transactions.filter (fun t => !(t.user_id == uid)))
    ∧ (∀ id, (deleteTx db1 uid id).1.transactions.filter
          (fun t => !(t.user_id == uid))
        = db1.transactions.filter (fun t => !(t.user_id == uid))) := by
  have hsm : ∀ sd ed, statsMatching db1 uid sd ed
      = statsMatching db2 uid sd ed := by
    intro sd ed
    unfold statsMatching
    rw [filter_and_eq_nested (fun t : Transaction => t.user_id == uid)
        (fun t : Transaction => matchesRange sd ed t.date),
      filter_and_eq_nested (fun t : Transaction => t.user_id == uid)
        (fun t : Transaction => matchesRange sd ed t.date), ht]
  have hjf : ∀ (q : Transaction × Category → Bool),
      (joinTxCat db1).filter (fun p => p.1.user_id == uid && q p)
        = (joinTxCat db2).filter (fun p => p.1.user_id == uid && q p) := by
    intro q
    rw [filter_and_eq_nested (fun p : Transaction × Category =>
        p.1.user_id == uid) q,
      filter_and_eq_nested (fun p : Transaction × Category =>
        p.1.user_id == uid) q,
      joinTxCat_filter_user, joinTxCat_filter_user, ht, hc]
  have hfind : ∀ id, db1.transactions.find?
      (fun t => t.id == id && t.user_id == uid)
        = db2.transactions.find?
          (fun t => t.id == id && t.user_id == uid) := by
    intro id
    rw [find?_and_filter (fun t : Transaction => t.id == id)
        (fun t : Transaction => t.user_id == uid), ht,
      ← find?_and_filter (fun t : Transaction => t.id == id)
        (fun t : Transaction => t.user_id == uid)]
  refine ⟨?_, ?_, ?_, ?_, ?_, ?_, ?_, ?_, ?_⟩
  · intro sd ed
    unfold statsSummary totalsQuery
    rw [hsm]
  · intro sd ed
    unfold byCategory byCategoryRows
    rw [hjf (fun p => matchesRange sd ed p.1.date)]
  · intro cutoff
    unfold daily dailyRows
    rw [filter_and_eq_nested (fun t : Transaction => t.user_id == uid)
        (fun t : Transaction => strLe cutoff t.date),
      filter_and_eq_nested (fun t : Transaction => t.user_id == uid)
        (fun t : Transaction => strLe cutoff t.date), ht]
  · unfold monthly monthlyRows
    rw [ht]
  · intro lp
    unfold listTransactions
    rw [hjf (listMatches lp)]
  · intro id u
    simp only [updateTx]
    rw [hfind id]
    by_cases hempty : (buildFieldSets u).isEmpty = true
    · rw [if_pos hempty, if_pos hempty]
    · rw [if_neg hempty, if_neg hempty]
      cases hf : db2.transactions.find?
          (fun t => t.id == id && t.user_id == uid) with
      | none => rfl
      | some t0 => rfl
  · intro id
    simp only [deleteTx]
    rw [hfind id]
    cases hf : db2.transactions.find?
        (fun t => t.id == id && t.user_id == uid) with
    | none => rfl
    | some t0 => rfl
  · intro id u
    have hframe : (db1.transactions.map (fun t =>
        if (t.id == id && t.user_id == uid) = true
        then applyFieldSets (buildFieldSets u) t else t)).filter
          (fun t => !(t.user_id == uid))
        = db1.transactions.filter (fun t => !(t.user_id == uid)) := by
      rw [List.filter_map]
      have hpc : ∀ t ∈ db1.transactions,
          ((fun t : Transaction => !(t.user_id == uid)) ∘ (fun t =>
            if (t.id == id && t.user_id == uid) = true
            then applyFieldSets (buildFieldSets u) t else t)) t
          = (!(t.user_id == uid)) := by
        intro t _
        show (!((if (t.id == id && t.user_id == uid) = true
            then applyFieldSets (buildFieldSets u) t
            else t).user_id == uid))
          = (!(t.user_id == uid))
        by_cases hm : (t.id == id && t.user_id == uid) = true
        · rw [if_pos hm, applyFieldSets_keeps_user_id]
        · rw [if_neg hm]
      rw [List.filter_congr hpc]
      have hid : ∀ t ∈ db1.transactions.filter
          (fun t : Transaction => !(t.user_id == uid)),
          (if (t.id == id && t.user_id == uid) = true
            then applyFieldSets (buildFieldSets u) t else t) = t := by
        intro t htmem
        have hp := (List.mem_filter.mp htmem).2
        rw [Bool.not_eq_true'] at hp
        rw [if_neg (by simp [hp])]
      rw [List.map_congr_left hid]
      simp
    simp only [updateTx]
    by_cases hempty : (buildFieldSets u).isEmpty = true
    · rw [if_pos hempty]
    · rw [if_neg hempty]
      cases hf : db1.transactions.find?
          (fun t => t.id == id && t.user_id == uid) with
      | none => exact hframe
      | some t0 => exact hframe
  · intro id
    have hframe : (db1.transactions.filter (fun t =>
        !(t.id == id && t.user_id == uid))).filter
          (fun t => !(t.user_id == uid))
        = db1.transactions.filter (fun t => !(t.user_id == uid)) := by
      rw [List.filter_filter]
      apply List.filter_congr
      intro t _
      by_cases hu : (t.user_id == uid) = true
      · simp [hu]
      · simp [hu]
    simp only [deleteTx]
    cases hf : db1.transactions.find?
        (fun t => t.id == id && t.user_id == uid) with
    | none => exact hframe
    | some t0 => exact hframe


/-- Witness for C3: two stores agreeing on categories and on user 1's
(empty) transaction set are indistinguishable to user 1. -/
theorem user_isolation_witness :
    (dbB.categories = dbBEmpty.categories
      ∧ dbB.transactions.filter (fun t => t.user_id == 1)
        = dbBEmpty.transactions.filter (fun t => t.user_id == 1))
    ∧ ((∀ sd ed, statsSummary dbB 1 sd ed = statsSummary dbBEmpty 1 sd ed)
      ∧ (∀ sd ed, byCategory dbB 1 sd ed = byCategory dbBEmpty 1 sd ed)
      ∧ (∀ cutoff, daily dbB 1 cutoff = daily dbBEmpty 1 cutoff)
      ∧ monthly dbB 1 = monthly dbBEmpty 1
      ∧ (∀ lp, listTransactions dbB 1 lp = listTransactions dbBEmpty 1 lp)
      ∧ (∀ id u, (updateTx dbB 1 id u).2 = (updateTx dbBEmpty 1 id u).2)
      ∧ (∀ id, (deleteTx dbB 1 id).2 = (deleteTx dbBEmpty 1 id).2)
      ∧ (∀ id u, (updateTx dbB 1 id u).1.transactions.filter
            (fun t => !(t.user_id == 1))
          = dbB.transactions.filter (fun t => !(t.user_id == 1)))
      ∧ (∀ id, (deleteTx dbB 1 id).1.transactions.filter
            (fun t => !(t.user_id == 1))
          = dbB.transactions.filter (fun t => !(t.user_id == 1)))) :=
  ⟨⟨rfl, by decide⟩, user_isolation dbB dbBEmpty 1 rfl (by decide)⟩

/-- Counterexample to C2 as stated: user 1 has one expense transaction of
amount 50 filed under category 7, whose own type is income. The summary
groups by the transaction's type (expense total 50), while by_category
reports the category's type (income), so the expense-type by-category sum
is 0 ≠ 50. -/
theorem bycategory_type_sum_counterexample :
    byCategoryTypeTotal dbTypeMix 1 none none TxType.expense
      ≠ summaryTotalOf (statsSummary dbTypeMix 1 none none)
          TxType.expense := by
  have h1 : byCategoryTypeTotal dbTypeMix 1 none none TxType.expense
      = 0 := rfl
  have h2 : summaryTotalOf (statsSummary dbTypeMix 1 none none)
      TxType.expense = 50 := by
    rw [statsSummary_total]
    simp [statsMatching, dbTypeMix, txMismatch, matchesRange, jsTruthy]
  rw [h1, h2]
  norm_num

/-- C2, corrected: the by-category/summary reconciliation needs the two
type columns to agree. If category ids are unique (the primary key) and
every matching transaction references an existing category whose type
equals the transaction's own type, then for each type the sum of the
by-category totals over categories of that type equals the summary total
of that type, for any identical range filter. -/
theorem bycategory_type_sum_amended (db : Db) (uid : Nat)
    (sd ed : Option String) (τ : TxType)
    (hnd : (db.categories.map (fun c => c.id)).Nodup)
    (hcov : ∀ t ∈ statsMatching db uid sd ed,
      ∃ c ∈ db.categories, c.id = t.category_id ∧ c.type = t.type) :
    byCategoryTypeTotal db uid sd ed τ
      = summaryTotalOf (statsSummary db uid sd ed) τ := by
  have hA : byCategoryTypeTotal db uid sd ed τ
      = (((byCategoryRows db uid sd ed).filter (fun r => r.type == τ)).map
          (fun r => r.total)).sum := by
    unfold byCategoryTypeTotal byCategory
    exact (((List.perm_insertionSort catRowGe
        (byCategoryRows db uid sd ed)).filter
      (fun r : CatRow => r.type == τ)).map
        (fun r : CatRow => r.total)).sum_eq
  rw [hA]
  rw [show byCategoryRows db uid sd ed
      = (groupByKey (fun p : Transaction × Category => p.2.id)
          ((joinTxCat db).filter (fun p =>
            p.1.user_id == uid && matchesRange sd ed p.1.date))).map mkCatRow
      from rfl]
  rw [← sum_map_ite_filter (fun r : CatRow => r.type == τ)
    (fun r => r.total)
    ((groupByKey (fun p : Transaction × Category => p.2.id)
      ((joinTxCat db).filter (fun p =>
        p.1.user_id == uid && matchesRange sd ed p.1.date))).map mkCatRow)]
  rw [List.map_map]
  have hC : ∀ g ∈ groupByKey (fun p : Transaction × Category => p.2.id)
      ((joinTxCat db).filter (fun p =>
        p.1.user_id == uid && matchesRange sd ed p.1.date)),
      ((fun r : CatRow => if r.type == τ then r.total else 0) ∘ mkCatRow) g
        = (g.2.map (fun q : Transaction × Category =>
            if q.2.type == τ then q.1.amount else 0)).sum := by
    intro g hg
    rcases mem_groupByKey hg with ⟨hfib, a, haJ, hkey⟩
    have hamem : a ∈ g.2 := by
      rw [hfib]
      exact List.mem_filter.mpr ⟨haJ, by simp [hkey]⟩
    rcases hds : g.2 with _ | ⟨p0, rest⟩
    · rw [hds] at hamem
      simp at hamem
    · rw [← hds]
      have hmemc : ∀ q ∈ g.2, q ∈ joinTxCat db ∧ q.2.id = g.1 := by
        intro q hq
        rw [hfib] at hq
        rcases List.mem_filter.mp hq with ⟨hq1, hq2⟩
        rcases List.mem_filter.mp hq1 with ⟨hq3, _⟩
        exact ⟨hq3, by simpa using hq2⟩
      have hsame : ∀ q ∈ g.2, q.2 = p0.2 := by
        intro q hq
        have hp0 : p0 ∈ g.2 := by
          rw [hds]
          exact List.mem_cons_self _ _
        rcases hmemc q hq with ⟨hqJ, hqid⟩
        rcases hmemc p0 hp0 with ⟨hpJ, hpid⟩
        have hqcats : q.2 ∈ db.categories := by
          obtain ⟨qt, qc⟩ := q
          exact (mem_joinTxCat.mp hqJ).2.1
        have hpcats : p0.2 ∈ db.categories := by
          obtain ⟨pt, pc⟩ := p0
          exact (mem_joinTxCat.mp hpJ).2.1
        exact List.inj_on_of_nodup_map hnd hqcats hpcats (by rw [hqid, hpid])
      have htyp : (mkCatRow g).type = p0.2.type := by
        simp only [mkCatRow, hds]
      have htot : (mkCatRow g).total
          = (g.2.map (fun q => q.1.amount)).sum := by
        simp only [mkCatRow, hds]
      show (if (mkCatRow g).type == τ then (mkCatRow g).total else 0)
          = (g.2.map (fun q : Transaction × Category =>
              if q.2.type == τ then q.1.amount else 0)).sum
      by_cases hτ : p0.2.type = τ
      · have hall : ∀ q ∈ g.2,
            (if q.2.type == τ then q.1.amount else 0) = q.1.amount := by
          intro q hq
          rw [hsame q hq, hτ]
          simp
        rw [List.map_congr_left hall, htyp, hτ]
        simp only [beq_self_eq_true, if_true]
        exact htot
      · have hz : ∀ q ∈ g.2,
            (if q.2.type == τ then q.1.amount else 0) = (0 : ℚ) := by
          intro q hq
          rw [hsame q hq]
          simp [hτ]
        rw [List.map_congr_left hz, htyp]
        have hbf : (p0.2.type == τ) = false := by simp [hτ]
        rw [hbf]
        simp
  rw [List.map_congr_left hC]
  rw [groupByKey_eq_map, List.map_map]
  rw [show ((fun g : Nat × List (Transaction × Category) =>
      (g.2.map (fun q : Transaction × Category =>
        if q.2.type == τ then q.1.amount else 0)).sum) ∘
      (fun k => (k, ((joinTxCat db).filter (fun p =>
        p.1.user_id == uid && matchesRange sd ed p.1.date)).filter
          (fun a => decide (a.2.id = k)))))
    = fun k => ((((joinTxCat db).filter (fun p =>
        p.1.user_id == uid && matchesRange sd ed p.1.date)).filter
          (fun a => decide (a.2.id = k))).map
            (fun q : Transaction × Category =>
              if q.2.type == τ then q.1.amount else 0)).sum from rfl]
  rw [sum_fibers (fun p : Transaction × Category => p.2.id)
    (fun q : Transaction × Category =>
      if q.2.type == τ then q.1.amount else 0)
    ((joinTxCat db).filter (fun p =>
      p.1.user_id == uid && matchesRange sd ed p.1.date))]
  rw [← sum_map_ite_filter (fun p : Transaction × Category =>
      p.1.user_id == uid && matchesRange sd ed p.1.date)
    (fun q : Transaction × Category =>
      if q.2.type == τ then q.1.amount else 0) (joinTxCat db)]
  rw [show joinTxCat db = db.transactions.flatMap (fun t =>
      (db.categories.filter (fun c => c.id == t.category_id)).map
        (fun c => (t, c))) from rfl]
  rw [sum_map_flatMap]
  have hinner : ∀ t ∈ db.transactions,
      (((db.categories.filter (fun c => c.id == t.category_id)).map
          (fun c => (t, c))).map (fun p : Transaction × Category =>
            if p.1.user_id == uid && matchesRange sd ed p.1.date
            then (if p.2.type == τ then p.1.amount else 0) else 0)).sum
        = if t.user_id == uid && matchesRange sd ed t.date
          then ((db.categories.filter (fun c => c.id == t.category_id)).map
            (fun c => if c.type == τ then t.amount else 0)).sum
          else 0 := by
    intro t _
    rw [List.map_map]
    by_cases hq : (t.user_id == uid && matchesRange sd ed t.date) = true
    · rw [if_pos hq]
      have hco : ∀ c ∈ db.categories.filter
          (fun c => c.id == t.category_id),
          ((fun p : Transaction × Category =>
            if p.1.user_id == uid && matchesRange sd ed p.1.date
            then (if p.2.type == τ then p.1.amount else 0) else 0) ∘
            (fun c => (t, c))) c
            = (if c.type == τ then t.amount else 0) := by
        intro c _
        show (if t.user_id == uid && matchesRange sd ed t.date
            then (if c.type == τ then t.amount else 0) else 0)
          = (if c.type == τ then t.amount else 0)
        rw [if_pos hq]
      rw [List.map_congr_left hco]
    · rw [if_neg hq]
      have hco : ∀ c ∈ db.categories.filter
          (fun c => c.id == t.category_id),
          ((fun p : Transaction × Category =>
            if p.1.user_id == uid && matchesRange sd ed p.1.date
            then (if p.2.type == τ then p.1.amount else 0) else 0) ∘
            (fun c => (t, c))) c = (0 : ℚ) := by
        intro c _
        show (if t.user_id == uid && matchesRange sd ed t.date
            then (if c.type == τ then t.amount else 0) else 0) = (0 : ℚ)
        rw [if_neg hq]
      rw [List.map_congr_left hco]
      simp
  rw [List.map_congr_left hinner]
  rw [sum_map_ite_filter (fun t : Transaction =>
      t.user_id == uid && matchesRange sd ed t.date)
    (fun t : Transaction =>
      ((db.categories.filter (fun c => c.id == t.category_id)).map
        (fun c => if c.type == τ then t.amount else 0)).sum)
    db.transactions]
  rw [show db.transactions.filter (fun t =>
      t.user_id == uid && matchesRange sd ed t.date)
    = statsMatching db uid sd ed from rfl]
  have hG : ∀ t ∈ statsMatching db uid sd ed,
      ((db.categories.filter (fun c => c.id == t.category_id)).map
        (fun c => if c.type == τ then t.amount else 0)).sum
        = (if t.type == τ then t.amount else 0) := by
    intro t ht
    rcases hcov t ht with ⟨c₀, hc₀m, hc₀id, hc₀ty⟩
    rw [filter_eq_singleton_of_nodup_key db.categories hnd c₀ hc₀m
      t.category_id hc₀id]
    rw [List.map_cons, List.map_nil, List.sum_cons, List.sum_nil, add_zero,
      hc₀ty]
  rw [List.map_congr_left hG]
  rw [sum_map_ite_filter (fun t : Transaction => t.type == τ)
    (fun t => t.amount) (statsMatching db uid sd ed)]
  exact (statsSummary_total db uid sd ed τ).symm

/-- Witness for C2 (amended) at a concrete consistent store. -/
theorem bycategory_type_sum_amended_witness :
    ((dbA.categories.map (fun c => c.id)).Nodup
      ∧ (∀ t ∈ statsMatching dbA 1 none none,
          ∃ c ∈ dbA.categories, c.id = t.category_id ∧ c.type = t.type))
    ∧ byCategoryTypeTotal dbA 1 none none TxType.expense
        = summaryTotalOf (statsSummary dbA 1 none none) TxType.expense :=
  ⟨⟨by decide, by decide⟩,
    bycategory_type_sum_amended dbA 1 none none TxType.expense
      (by decide) (by decide)⟩

end Saves
